import Mathlib

/-!
Verification of the voice interaction protocol and client-side state machine
of the agri-ai frontend.

The definitions below are shallow embeddings of the TypeScript sources:

* `sanitizeText`              — frontend/utils/textUtils.ts
* `VoiceMessage`, `handleMessage`, `onmessageStep`
                              — utils/voiceWebSocket.ts (`VoiceWebSocketClient`)
* `VoiceWS` / `VoiceWSVariant` — the two versions of `VoiceWebSocketClient`
                                 present in the repository (reconnection logic)
* `stopFinalize`, `base64Encode` — frontend/utils/voiceRecorder.ts
* `scheduleAudioPlayback`     — frontend/components/ChatWindow.tsx
* `handleVoiceStreamChunk`, `handleVoiceResponse` — ChatWindow.tsx message list
* `VState`, `Event`, `step`, `Reach`, `ReachP`
                              — frontend/hooks/useVoiceRecorder.ts session
                                state machine

JavaScript strings are modelled as `String` / `List Char`; timers as
single-slot `Option Nat` fields holding the programmed delay (a slot is
pending iff it is `some`); UI callbacks as an explicit output list per step.
-/

/-! ## Text sanitization (frontend/utils/textUtils.ts, `sanitizeText`)

The source operates on JavaScript strings with `endsWith` / `startsWith`
loops, a regex replace, and `trim`.  We model the string as its character
list.  The `String.prototype.normalize('NFC')` call is not modelled: the
strings handled by the theorems below are NFC-fixed (ASCII), on which the
call is the identity; Unicode normalization tables are outside this model. -/

/-- One `startsWith`-and-drop step: if `cs` starts with `word`, return the
rest of `cs`, else `none`.  (JS `s.startsWith(word)` + `s.slice(word.length)`.) -/
def dropWordOnce : List Char → List Char → Option (List Char)
  | [], cs => some cs
  | _ :: _, [] => none
  | w :: ws, c :: cs => if w = c then dropWordOnce ws cs else none

/-- Fuel-driven loop repeating `dropWordOnce`.  For a non-empty `word`, each
successful step consumes at least one character, so fuel `cs.length + 1`
makes this exactly the source's `while (s.startsWith(word))` loop. -/
def dropWordAllAux : Nat → List Char → List Char → List Char
  | 0, _, cs => cs
  | Nat.succ fuel, word, cs =>
    match dropWordOnce word cs with
    | some rest => dropWordAllAux fuel word rest
    | none => cs

/-- Strip every leading occurrence of `word` from `cs`
(JS `while (result.startsWith(word)) result = result.slice(word.length)`). -/
def dropLeadingAll (word cs : List Char) : List Char :=
  dropWordAllAux (cs.length + 1) word cs

/-- Strip every trailing occurrence of `word` from `cs`
(JS `while (result.endsWith(word)) result = result.slice(0, -word.length)`),
implemented on the reversed list. -/
def dropTrailingAll (word cs : List Char) : List Char :=
  (dropLeadingAll word.reverse cs.reverse).reverse

/-- JS `result.replace(/  +/g, ' ')`: every run of two or more spaces is
collapsed to a single space (runs of length one are left alone). -/
def collapseSpaces : List Char → List Char
  | [] => []
  | [c] => [c]
  | c1 :: c2 :: rest =>
    if c1 = ' ' ∧ c2 = ' ' then collapseSpaces (c2 :: rest)
    else c1 :: collapseSpaces (c2 :: rest)

/-- The four zero-width code points removed by
`result.replace(/[​‌‍﻿]/g, '')`. -/
def isZeroWidth (c : Char) : Bool :=
  c == Char.ofNat 0x200b || c == Char.ofNat 0x200c ||
  c == Char.ofNat 0x200d || c == Char.ofNat 0xfeff

/-- ECMA-262 whitespace recognized by `String.prototype.trim`. -/
def isJsWhitespace (c : Char) : Bool :=
  c == ' ' || c == Char.ofNat 0x09 || c == Char.ofNat 0x0a ||
  c == Char.ofNat 0x0b || c == Char.ofNat 0x0c || c == Char.ofNat 0x0d ||
  c == Char.ofNat 0xa0 || c == Char.ofNat 0x1680 ||
  (decide (0x2000 ≤ c.toNat) && decide (c.toNat ≤ 0x200a)) ||
  c == Char.ofNat 0x2028 || c == Char.ofNat 0x2029 ||
  c == Char.ofNat 0x202f || c == Char.ofNat 0x205f ||
  c == Char.ofNat 0x3000 || c == Char.ofNat 0xfeff

/-- JS `String.prototype.trim`. -/
def jsTrim (cs : List Char) : List Char :=
  ((cs.dropWhile isJsWhitespace).reverse.dropWhile isJsWhitespace).reverse

/-- `sanitizeText` from frontend/utils/textUtils.ts, restricted to the
string domain (the `null` / `undefined` / non-string early returns of the
source are outside the `String` type).  Step order follows the source:
strip trailing "undefined", strip leading "undefined", strip trailing
"null", collapse multi-space runs, remove zero-width characters, (NFC,
the identity here, see the section comment), trim. -/
def sanitizeText (text : String) : String :=
  let r1 := dropTrailingAll "undefined".data text.data
  let r2 := dropLeadingAll "undefined".data r1
  let r3 := dropTrailingAll "null".data r2
  let r4 := collapseSpaces r3
  let r5 := r4.filter (fun c => !(isZeroWidth c))
  String.mk (jsTrim r5)

/-! ## Wire messages (utils/voiceWebSocket.ts)

`VoiceMessage` is the duck-typed payload shape; the dispatcher
`handleMessage` mirrors the source `switch` including the JavaScript
truthiness guards (`if (message.content)` rejects both an absent field and
the empty string), and `message.language || 'en'` (empty string also falls
back to `'en'`). -/

structure VoiceMessage where
  type : String
  content : Option String := none
  url : Option String := none
  language : Option String := none
  message : Option String := none
deriving DecidableEq, Repr

/-- Which client callback `handleMessage` fires, with its arguments. -/
inductive Dispatched
  | transcriptCb (text language : String)
  | streamChunkCb (chunk : String)
  | streamEndCb (fullText language : String)
  | audioUrlCb (url language : String)
  | errorCb (message : String)
deriving DecidableEq, Repr

/-- JavaScript truthiness of an optional string field:
`undefined` and `""` are falsy. -/
def truthyField : Option String → Bool
  | none => false
  | some s => !(s == "")

/-- JS `o || dflt` on an optional string. -/
def jsOr (o : Option String) (dflt : String) : String :=
  match o with
  | some s => if s == "" then dflt else s
  | none => dflt

/-- `VoiceWebSocketClient.handleMessage`: dispatch one parsed frame to at
most one callback.  `pong` and unrecognized types dispatch nothing (the
source only logs a warning on the default branch). -/
def handleMessage (m : VoiceMessage) : Option Dispatched :=
  if m.type = "transcript" then
    if truthyField m.content then
      some (.transcriptCb (m.content.getD "") (jsOr m.language "en"))
    else none
  else if m.type = "stream_chunk" then
    if truthyField m.content then some (.streamChunkCb (m.content.getD ""))
    else none
  else if m.type = "stream_end" then
    if truthyField m.content then
      some (.streamEndCb (m.content.getD "") (jsOr m.language "en"))
    else none
  else if m.type = "audio_url" then
    if truthyField m.url then
      some (.audioUrlCb (m.url.getD "") (jsOr m.language "en"))
    else none
  else if m.type = "error" then
    if truthyField m.message then some (.errorCb (m.message.getD ""))
    else none
  else if m.type = "pong" then none
  else none

/-- Connection-level state of a `VoiceWebSocketClient` (both versions):
the bounded reconnection counter and the caller-initiated-close flag. -/
structure WSClientState where
  reconnectAttempts : Nat
  intentionalClose : Bool
deriving DecidableEq, Repr

/-- The socket `onmessage` handler: `JSON.parse` failure is modelled as
`none` (the catch block dispatches nothing); a parsed frame goes through
`handleMessage`.  The handler never touches the client connection state. -/
def onmessageStep (c : WSClientState) (frame : Option VoiceMessage) :
    WSClientState × Option Dispatched :=
  (c, frame.bind handleMessage)

/-- The message kinds the `switch` in `handleMessage` recognizes. -/
def recognizedTypes : List String :=
  ["transcript", "stream_chunk", "stream_end", "audio_url", "error", "pong"]

/-- Modelled from the claim wording: a frame is malformed when its type is
unrecognized or its required field is absent or empty. -/
def malformedFrame (m : VoiceMessage) : Bool :=
  !(recognizedTypes.contains m.type) ||
  ((m.type == "transcript" || m.type == "stream_chunk" ||
    m.type == "stream_end") && !(truthyField m.content)) ||
  (m.type == "audio_url" && !(truthyField m.url)) ||
  (m.type == "error" && !(truthyField m.message))

/-! ## Reconnection logic: the two `VoiceWebSocketClient` versions

`VoiceWS` is the client in utils/voiceWebSocket.ts (src/unnamed/part_004):
3 attempts, base delay 1000 ms, scheduled delay
`reconnectDelay * reconnectAttempts` after the increment.

`VoiceWSVariant` is the second version shipped in the repository (the file
also carrying `ConnectionStatus`): 5 attempts, constant delay
`reconnectDelay` = 2000 ms.

`oncloseStep` returns the new client state and `some delay` when a
reconnection attempt is scheduled by the `onclose` handler, `none`
otherwise. -/

namespace VoiceWS

def maxReconnectAttempts : Nat := 3

def reconnectDelay : Nat := 1000

def oncloseStep (s : WSClientState) : WSClientState × Option Nat :=
  if !s.intentionalClose ∧ s.reconnectAttempts < maxReconnectAttempts then
    ({ s with reconnectAttempts := s.reconnectAttempts + 1 },
     some (reconnectDelay * (s.reconnectAttempts + 1)))
  else (s, none)

def onopenStep (s : WSClientState) : WSClientState :=
  { s with reconnectAttempts := 0 }

def disconnectStep (s : WSClientState) : WSClientState :=
  { s with intentionalClose := true }

end VoiceWS

namespace VoiceWSVariant

def maxReconnectAttempts : Nat := 5

def reconnectDelay : Nat := 2000

def oncloseStep (s : WSClientState) : WSClientState × Option Nat :=
  if !s.intentionalClose ∧ s.reconnectAttempts < maxReconnectAttempts then
    ({ s with reconnectAttempts := s.reconnectAttempts + 1 },
     some reconnectDelay)
  else (s, none)

def onopenStep (s : WSClientState) : WSClientState :=
  { s with reconnectAttempts := 0 }

def disconnectStep (s : WSClientState) : WSClientState :=
  { s with intentionalClose := true }

end VoiceWSVariant

/-! ## Recorder finalization (frontend/utils/voiceRecorder.ts)

`stop()` rejects immediately when not recording; otherwise the
`MediaRecorder.onstop` handler finalizes the captured chunks: it builds the
blob, rejects when the blob is under 100 bytes, tries the MP3 transcode and
on any failure falls back to the base64 of the raw webm bytes.

Bytes are `Nat`s in `0..255`.  The MP3 transcode (lamejs + `AudioContext`
decoding, a browser facility) is a parameter: `some data` when it succeeds
with base64 payload `data`, `none` when it throws for any reason.  The
`FileReader` data-URL path is standard base64, modelled by
`base64Encode`. -/

def MIN_RECORDING_BYTES : Nat := 100

structure RecordingResult where
  audioData : String
  format : String
  durationMs : Nat
deriving DecidableEq, Repr

def base64Table : List Char :=
  "ABCDEFGHIJKLMNOPQRSTUVWXYZabcdefghijklmnopqrstuvwxyz0123456789+/".data

def b64Char (n : Nat) : Char := base64Table.getD (n % 64) 'A'

/-- Standard base64 of a byte list (with `=` padding). -/
def base64EncodeAux : List Nat → List Char
  | [] => []
  | [b0] =>
    [b64Char (b0 / 4), b64Char (b0 % 4 * 16), '=', '=']
  | [b0, b1] =>
    [b64Char (b0 / 4), b64Char (b0 % 4 * 16 + b1 / 16),
     b64Char (b1 % 16 * 4), '=']
  | b0 :: b1 :: b2 :: rest =>
    b64Char (b0 / 4) :: b64Char (b0 % 4 * 16 + b1 / 16) ::
    b64Char (b1 % 16 * 4 + b2 / 64) :: b64Char (b2 % 64) ::
    base64EncodeAux rest

def base64Encode (bytes : List Nat) : String := String.mk (base64EncodeAux bytes)

/-- `VoiceRecorder.stop()` combined with the `onstop` finalization it awaits:
`recording` is `this.isRecording` at the call, `bytes` the bytes of the
assembled blob, `durationMs` the elapsed `Date.now() - startTime`, and
`mp3` the outcome of `convertToMp3`.  `Except.error` is the promise
rejection, `Except.ok` the resolved `RecordingResult`. -/
def stopFinalize (recording : Bool) (bytes : List Nat) (durationMs : Nat)
    (mp3 : Option String) : Except String RecordingResult :=
  if !recording then .error "Not recording"
  else if bytes.length < MIN_RECORDING_BYTES then
    .error ("Recording too small: " ++ toString bytes.length ++ " bytes")
  else
    match mp3 with
    | some data => .ok ⟨data, "mp3", durationMs⟩
    | none => .ok ⟨base64Encode bytes, "webm", durationMs⟩

/-! ## Playback scheduling (ChatWindow.tsx, `scheduleAudioPlayback`)

Timestamps are milliseconds as `Int` (JS `Date.now()`).
`transcriptShownAt` is `transcriptShownAtRef.current` (`none` when the ref
is null, in which case the source falls back to `Date.now()`). -/

inductive PlaybackAction
  | playNow (url : String)
  | playAfter (delayMs : Int) (url : String)
deriving DecidableEq, Repr

/-- `scheduleAudioPlayback`: start playback at least 1000 ms after the
transcript was shown; play immediately when the dwell time has already
elapsed, otherwise defer by `max(1000 - elapsed, 0)`. -/
def scheduleAudioPlayback (transcriptShownAt : Option Int) (now : Int)
    (url : String) : PlaybackAction :=
  let shownAt := transcriptShownAt.getD now
  let elapsed := now - shownAt
  let delay := max (1000 - elapsed) 0
  if delay = 0 then .playNow url else .playAfter delay url

/-- The moment playback starts under a `PlaybackAction` taken at `now`. -/
def playbackStart (a : PlaybackAction) (now : Int) : Int :=
  match a with
  | .playNow _ => now
  | .playAfter d _ => now + d

/-! ## ChatWindow message list (ChatWindow.tsx)

The single-bubble streaming logic: `handleVoiceStreamChunk` creates or
updates the one streaming agent bubble, `handleVoiceResponse` finalizes it
in place with the sanitized authoritative `stream_end` content.  `freshId`
stands for the `voice-ai-${Date.now()}` identifier minted when a new bubble
has to be created. -/

inductive Sender
  | user
  | agent
deriving DecidableEq, Repr

inductive MsgStatus
  | streaming
  | final
deriving DecidableEq, Repr

structure ChatMessage where
  id : String
  text : String
  sender : Sender
  streaming : Bool
  status : Option MsgStatus
deriving DecidableEq, Repr

structure WindowState where
  messages : List ChatMessage
  streamingMsgId : Option String
deriving DecidableEq, Repr

def updateById (ms : List ChatMessage) (i : String)
    (f : ChatMessage → ChatMessage) : List ChatMessage :=
  ms.map (fun m => if m.id = i then f m else m)

def hasId (ms : List ChatMessage) (i : String) : Bool :=
  ms.any (fun m => m.id == i)

/-- `handleVoiceStreamChunk`: update the single streaming bubble in place
with the sanitized accumulated text, creating it on the first chunk (or if
the referenced bubble vanished).  An empty sanitized chunk is ignored. -/
def handleVoiceStreamChunk (freshId accumulatedText : String)
    (w : WindowState) : WindowState :=
  let clean := sanitizeText accumulatedText
  if clean = "" then w
  else
    match w.streamingMsgId with
    | some i =>
      if hasId w.messages i then
        { w with messages := updateById w.messages i (fun m => { m with text := clean }) }
      else
        { messages := w.messages ++ [⟨freshId, clean, .agent, false, some .streaming⟩],
          streamingMsgId := some freshId }
    | none =>
      { messages := w.messages ++ [⟨freshId, clean, .agent, false, some .streaming⟩],
        streamingMsgId := some freshId }

/-- `handleVoiceResponse` (the `stream_end` path): replace the streaming
bubble's text with the sanitized authoritative content and mark it final;
only when no streaming bubble exists is a new message appended. -/
def handleVoiceResponse (freshId text : String) (w : WindowState) :
    WindowState :=
  let clean := sanitizeText text
  match w.streamingMsgId with
  | some i =>
    if hasId w.messages i then
      { messages := updateById w.messages i
          (fun m => { m with text := clean, streaming := false, status := some .final }),
        streamingMsgId := none }
    else
      { messages := w.messages ++ [⟨freshId, clean, .agent, true, some .final⟩],
        streamingMsgId := none }
  | none =>
    { messages := w.messages ++ [⟨freshId, clean, .agent, true, some .final⟩],
      streamingMsgId := none }

/-! ## Voice session state machine (frontend/hooks/useVoiceRecorder.ts)

One `VState` collects the hook's pieces of state: the `RecordingState`
(`state` / `stateRef`), the feature-support flag (`isSupported`, fixed at
mount), the accumulated streamed text (`streamingTextRef`), the single-slot
buffered audio asset (`pendingAudioUrlRef`), the two timer slots
(`responseTimeoutRef`, `audioUrlTimeoutRef`, pending iff `some delay`), and
the error slot (`error`).

Two per-turn observation logs record what the hook delivered to the UI
during the current turn; both are reset when a new recording starts:
`deliveredAudio` collects the assets passed to the `onAudioUrl` UI
callback, `finalText` the authoritative text passed to `onResponse`.

Each step additionally returns the list of UI callbacks it fires, in
order.  The `await` inside `stopRecording` is collapsed into one atomic
event: the remote agent cannot answer a query before it has been sent, so
no channel event can interleave with the encode of the turn being sent. -/

inductive Phase
  | idle
  | recording
  | processing
  | streaming
  | waiting_audio
  | playing
deriving DecidableEq, Repr, Fintype

structure AudioAsset where
  url : String
  language : String
deriving DecidableEq, Repr

/-- UI callbacks fired by the hook towards ChatWindow. -/
inductive Out
  | transcriptShown (text language : String)
  | chunkShown (accumulated : String)
  | responseShown (text language : String)
  | audioDelivered (a : AudioAsset)
  | errorReported (message : String)
deriving DecidableEq, Repr

structure VState where
  phase : Phase
  supported : Bool
  streamingText : String
  pendingAudio : Option AudioAsset
  responseTimer : Option Nat
  audioTimer : Option Nat
  errorSlot : Option String
  deliveredAudio : List AudioAsset
  finalText : Option String
deriving DecidableEq, Repr

def RESPONSE_TIMEOUT_MS : Nat := 30000

def AUDIO_URL_TIMEOUT_MS : Nat := 5000

def unsupportedMsg : String := "Voice recording is not supported in this browser"

def wsDisconnectedMsg : String := "WebSocket disconnected. Please try again."

def responseTimeoutMsg : String := "Agent did not respond in time. Please try again."

/-- The events the hook reacts to: the two user actions (with the failure
variants of `stopRecording`), the recorder error callback, the five channel
callbacks, the two timer callbacks, and the playback-finished notification
from ChatWindow. -/
inductive Event
  | userStart
  | userStop
  | userStopDisconnected
  | userStopFailed (message : String)
  | recorderError (message : String)
  | transcriptMsg (text language : String)
  | streamChunkMsg (chunk : String)
  | streamEndMsg (fullText language : String)
  | audioUrlMsg (url language : String)
  | wsErrorMsg (message : String)
  | responseTimeoutFires
  | audioTimeoutFires
  | playbackDone
deriving DecidableEq, Repr

/-- One reduction of the hook's event handlers.  Each branch is read off
the corresponding handler in useVoiceRecorder.ts; see the inline notes. -/
def step (s : VState) (e : Event) : VState × List Out :=
  match e with
  | .userStart =>
    -- startRecording(): unsupported guard, then the non-idle guard, then
    -- the happy path (recorder started, refs reset, error cleared).
    if !s.supported then
      ({ s with errorSlot := some unsupportedMsg }, [.errorReported unsupportedMsg])
    else if s.phase ≠ .idle then (s, [])
    else
      ({ s with phase := .recording, streamingText := "", pendingAudio := none,
                errorSlot := none, deliveredAudio := [], finalText := none }, [])
  | .userStop =>
    -- stopRecording() happy path: processing entered, blob sent,
    -- response timeout armed.
    if s.phase ≠ .recording then (s, [])
    else ({ s with phase := .processing, responseTimer := some RESPONSE_TIMEOUT_MS }, [])
  | .userStopDisconnected =>
    -- stopRecording(): recorder stop resolved but the socket is closed.
    if s.phase ≠ .recording then (s, [])
    else ({ s with phase := .idle }, [.errorReported wsDisconnectedMsg])
  | .userStopFailed msg =>
    -- stopRecording(): the recorder stop promise rejected.
    if s.phase ≠ .recording then (s, [])
    else ({ s with phase := .idle, errorSlot := some msg },
          [.errorReported ("Stop recording failed: " ++ msg)])
  | .recorderError msg =>
    -- The VoiceRecorder onError option; the recorder only exists between
    -- startRecording and the resolution of stop, i.e. in these phases.
    if s.phase = .recording ∨ s.phase = .processing then
      ({ s with phase := .idle, errorSlot := some msg }, [.errorReported msg])
    else (s, [])
  | .transcriptMsg t l =>
    -- onTranscript: forwarded to the UI, no state change.
    (s, [.transcriptShown t l])
  | .streamChunkMsg c =>
    -- onStreamChunk: accumulate, forward, processing → streaming.
    ({ s with streamingText := s.streamingText ++ c,
              phase := if s.phase = .processing then .streaming else s.phase },
     [.chunkShown (s.streamingText ++ c)])
  | .streamEndMsg t l =>
    -- onStreamEnd: clear the response timeout, discard accumulated text,
    -- deliver the final text; then either deliver the buffered asset at
    -- once (entering playing) or arm the audio-wait timeout.
    match s.pendingAudio with
    | some a =>
      ({ s with phase := .playing, responseTimer := none, streamingText := "",
                finalText := some t, pendingAudio := none,
                deliveredAudio := s.deliveredAudio ++ [a] },
       [.responseShown t l, .audioDelivered a])
    | none =>
      ({ s with phase := .waiting_audio, responseTimer := none, streamingText := "",
                finalText := some t, audioTimer := some AUDIO_URL_TIMEOUT_MS },
       [.responseShown t l])
  | .audioUrlMsg u l =>
    -- onAudioUrl: clear both timers, then dispatch on the current phase.
    if s.phase = .waiting_audio then
      ({ s with phase := .playing, responseTimer := none, audioTimer := none,
                deliveredAudio := s.deliveredAudio ++ [⟨u, l⟩] },
       [.audioDelivered ⟨u, l⟩])
    else if s.phase = .streaming ∨ s.phase = .processing then
      ({ s with responseTimer := none, audioTimer := none,
                pendingAudio := some ⟨u, l⟩ }, [])
    else
      ({ s with phase := .playing, responseTimer := none, audioTimer := none,
                deliveredAudio := s.deliveredAudio ++ [⟨u, l⟩] },
       [.audioDelivered ⟨u, l⟩])
  | .wsErrorMsg m =>
    -- onError: clear both timers, drop the buffered asset, record and
    -- report the error, reset to idle.  (streamingTextRef is not touched.)
    ({ s with phase := .idle, responseTimer := none, audioTimer := none,
              pendingAudio := none, errorSlot := some m },
     [.errorReported m])
  | .responseTimeoutFires =>
    -- The startResponseTimeout callback; it can only run while its slot is
    -- pending (a cleared timeout never fires).
    match s.responseTimer with
    | none => (s, [])
    | some _ =>
      ({ s with phase := .idle, responseTimer := none },
       [.errorReported responseTimeoutMsg])
  | .audioTimeoutFires =>
    -- The audio-wait timeout callback: go idle only from waiting_audio.
    match s.audioTimer with
    | none => (s, [])
    | some _ =>
      ({ s with audioTimer := none,
                phase := if s.phase = .waiting_audio then .idle else s.phase }, [])
  | .playbackDone =>
    -- markPlaybackDone (from ChatWindow when playback ends).
    ({ s with pendingAudio := none,
              phase := if s.phase = .playing then .idle else s.phase }, [])

def initState (supported : Bool) : VState :=
  ⟨.idle, supported, "", none, none, none, none, [], none⟩

/-- States reachable from a fresh mount by any event sequence. -/
inductive Reach : VState → Prop
  | start (b : Bool) : Reach (initState b)
  | next {s : VState} (e : Event) : Reach s → Reach (step s e).1

/-- Protocol-conformant reachability: same as `Reach`, except an
`audio_url` message only arrives while the turn that requested it is in
flight (processing, streaming or waiting_audio) — the remote agent only
synthesizes audio for a query it has received, and the spec (§9) treats an
audio asset arriving during `RECORDING` or `IDLE` as outside the defined
protocol. -/
inductive ReachP : VState → Prop
  | start (b : Bool) : ReachP (initState b)
  | next {s : VState} (e : Event) (hne : ∀ u l, e ≠ .audioUrlMsg u l) :
      ReachP s → ReachP (step s e).1
  | audioArrives {s : VState} (u l : String)
      (hph : s.phase = .processing ∨ s.phase = .streaming ∨ s.phase = .waiting_audio) :
      ReachP s → ReachP (step s (.audioUrlMsg u l)).1

/-- ChatWindow's `handleVoiceButtonClick`: start from idle, stop from
recording, otherwise ignore the click. -/
def clickStep (s : VState) : VState × List Out :=
  if s.phase = .idle then step s .userStart
  else if s.phase = .recording then step s .userStop
  else (s, [])

/-- The audio assets among a step's outputs. -/
def audioOuts : List Out → List AudioAsset
  | [] => []
  | .audioDelivered a :: rest => a :: audioOuts rest
  | _ :: rest => audioOuts rest

/-! ## Finite abstraction for reachability invariants

The invariants we need only look at the phase and at which slots are
occupied, never at the string payloads.  `absVState` projects a machine
state onto that finite signature, `stepAbs` mirrors `step` there, and the
commutation lemma `absVState_step` lets the invariants be checked by
finite enumeration. -/

structure AbsState where
  phase : Phase
  supported : Bool
  hasPending : Bool
  hasResponseTimer : Bool
  hasAudioTimer : Bool
  hasDelivered : Bool
  hasFinalText : Bool
deriving DecidableEq, Repr

instance : Fintype AbsState :=
  Fintype.ofEquiv (Phase × Bool × Bool × Bool × Bool × Bool × Bool)
    { toFun := fun p => ⟨p.1, p.2.1, p.2.2.1, p.2.2.2.1, p.2.2.2.2.1,
        p.2.2.2.2.2.1, p.2.2.2.2.2.2⟩
      invFun := fun a => ⟨a.phase, a.supported, a.hasPending, a.hasResponseTimer,
        a.hasAudioTimer, a.hasDelivered, a.hasFinalText⟩
      left_inv := fun _ => rfl
      right_inv := fun _ => rfl }

inductive AbsEvent
  | userStartE
  | userStopE
  | userStopDisconnectedE
  | userStopFailedE
  | recorderErrorE
  | transcriptE
  | streamChunkE
  | streamEndE
  | audioUrlE
  | wsErrorE
  | responseTimeoutE
  | audioTimeoutE
  | playbackDoneE
deriving DecidableEq, Repr, Fintype

def eventAbs : Event → AbsEvent
  | .userStart => .userStartE
  | .userStop => .userStopE
  | .userStopDisconnected => .userStopDisconnectedE
  | .userStopFailed _ => .userStopFailedE
  | .recorderError _ => .recorderErrorE
  | .transcriptMsg _ _ => .transcriptE
  | .streamChunkMsg _ => .streamChunkE
  | .streamEndMsg _ _ => .streamEndE
  | .audioUrlMsg _ _ => .audioUrlE
  | .wsErrorMsg _ => .wsErrorE
  | .responseTimeoutFires => .responseTimeoutE
  | .audioTimeoutFires => .audioTimeoutE
  | .playbackDone => .playbackDoneE

def absVState (s : VState) : AbsState :=
  ⟨s.phase, s.supported, s.pendingAudio.isSome, s.responseTimer.isSome,
   s.audioTimer.isSome, !s.deliveredAudio.isEmpty, s.finalText.isSome⟩

def stepAbs (a : AbsState) (e : AbsEvent) : AbsState :=
  match e with
  | .userStartE =>
    if !a.supported then a
    else if a.phase ≠ .idle then a
    else { a with phase := .recording, hasPending := false,
                  hasDelivered := false, hasFinalText := false }
  | .userStopE =>
    if a.phase ≠ .recording then a
    else { a with phase := .processing, hasResponseTimer := true }
  | .userStopDisconnectedE =>
    if a.phase ≠ .recording then a else { a with phase := .idle }
  | .userStopFailedE =>
    if a.phase ≠ .recording then a else { a with phase := .idle }
  | .recorderErrorE =>
    if a.phase = .recording ∨ a.phase = .processing then { a with phase := .idle }
    else a
  | .transcriptE => a
  | .streamChunkE =>
    { a with phase := if a.phase = .processing then .streaming else a.phase }
  | .streamEndE =>
    if a.hasPending then
      { a with phase := .playing, hasResponseTimer := false,
               hasFinalText := true, hasPending := false, hasDelivered := true }
    else
      { a with phase := .waiting_audio, hasResponseTimer := false,
               hasFinalText := true, hasAudioTimer := true }
  | .audioUrlE =>
    if a.phase = .waiting_audio then
      { a with phase := .playing, hasResponseTimer := false,
               hasAudioTimer := false, hasDelivered := true }
    else if a.phase = .streaming ∨ a.phase = .processing then
      { a with hasResponseTimer := false, hasAudioTimer := false,
               hasPending := true }
    else
      { a with phase := .playing, hasResponseTimer := false,
               hasAudioTimer := false, hasDelivered := true }
  | .wsErrorE =>
    { a with phase := .idle, hasResponseTimer := false,
             hasAudioTimer := false, hasPending := false }
  | .responseTimeoutE =>
    if a.hasResponseTimer then { a with phase := .idle, hasResponseTimer := false }
    else a
  | .audioTimeoutE =>
    if a.hasAudioTimer then
      { a with hasAudioTimer := false,
               phase := if a.phase = .waiting_audio then .idle else a.phase }
    else a
  | .playbackDoneE =>
    { a with hasPending := false,
             phase := if a.phase = .playing then .idle else a.phase }

theorem isEmpty_append_singleton {α : Type} (l : List α) (a : α) :
    (l ++ [a]).isEmpty = false := by
  cases l <;> rfl

theorem absVState_step (s : VState) (e : Event) :
    absVState (step s e).1 = stepAbs (absVState s) (eventAbs e) := by
  cases e with
  | userStart =>
    by_cases hs : s.supported
    · by_cases hp : s.phase = .idle <;>
        simp [step, stepAbs, absVState, eventAbs, hs, hp]
    · simp [step, stepAbs, absVState, eventAbs, hs]
  | userStop =>
    by_cases hp : s.phase = .recording <;>
      simp [step, stepAbs, absVState, eventAbs, hp]
  | userStopDisconnected =>
    by_cases hp : s.phase = .recording <;>
      simp [step, stepAbs, absVState, eventAbs, hp]
  | userStopFailed m =>
    by_cases hp : s.phase = .recording <;>
      simp [step, stepAbs, absVState, eventAbs, hp]
  | recorderError m =>
    by_cases hp : s.phase = .recording ∨ s.phase = .processing <;>
      simp [step, stepAbs, absVState, eventAbs, hp]
  | transcriptMsg t l => simp [step, stepAbs, absVState, eventAbs]
  | streamChunkMsg c => simp [step, stepAbs, absVState, eventAbs]
  | streamEndMsg t l =>
    cases hp : s.pendingAudio <;>
      simp [step, stepAbs, absVState, eventAbs, hp, isEmpty_append_singleton]
  | audioUrlMsg u l =>
    by_cases h1 : s.phase = .waiting_audio
    · simp [step, stepAbs, absVState, eventAbs, h1, isEmpty_append_singleton]
    · by_cases h2 : s.phase = .streaming ∨ s.phase = .processing <;>
        simp [step, stepAbs, absVState, eventAbs, h1, h2, isEmpty_append_singleton]
  | wsErrorMsg m => simp [step, stepAbs, absVState, eventAbs]
  | responseTimeoutFires =>
    cases hp : s.responseTimer <;>
      simp [step, stepAbs, absVState, eventAbs, hp]
  | audioTimeoutFires =>
    cases hp : s.audioTimer <;>
      simp [step, stepAbs, absVState, eventAbs, hp]
  | playbackDone => simp [step, stepAbs, absVState, eventAbs]

/-! ## Reachability invariants

`invTimers` ties the timer slots, the buffered asset and the phase
together; `invDelivery` relates audio delivery to text finalization for
protocol-conformant runs.  Both are checked on the finite abstraction and
lifted along `absVState_step`. -/

/-- Timer and buffer discipline:
a pending response timeout excludes a buffered asset and a pending
audio-wait timeout; the audio-wait timeout is only pending in
`waiting_audio`; in `waiting_audio` no asset is buffered and no response
timeout is pending; while recording no asset is buffered. -/
def invTimers (a : AbsState) : Bool :=
  (!a.hasResponseTimer || (!a.hasPending && !a.hasAudioTimer)) &&
  (!a.hasAudioTimer || a.phase == .waiting_audio) &&
  (!(a.phase == .waiting_audio) || (!a.hasPending && !a.hasResponseTimer)) &&
  (!(a.phase == .recording) || !a.hasPending)

/-- Delivery discipline: audio was delivered this turn only after the final
text was, and in `waiting_audio` the final text has been delivered. -/
def invDelivery (a : AbsState) : Bool :=
  (!a.hasDelivered || a.hasFinalText) &&
  (!(a.phase == .waiting_audio) || a.hasFinalText)

set_option maxRecDepth 100000 in
theorem invTimers_step : ∀ (a : AbsState) (e : AbsEvent),
    invTimers a = true → invTimers (stepAbs a e) = true := by decide

set_option maxRecDepth 100000 in
theorem invDelivery_step_nonaudio : ∀ (a : AbsState) (e : AbsEvent),
    e ≠ .audioUrlE → invDelivery a = true → invDelivery (stepAbs a e) = true := by
  decide

set_option maxRecDepth 100000 in
theorem invDelivery_step_audio : ∀ a : AbsState,
    (a.phase = .processing ∨ a.phase = .streaming ∨ a.phase = .waiting_audio) →
    invDelivery a = true → invDelivery (stepAbs a .audioUrlE) = true := by
  decide

theorem eventAbs_ne_audio {e : Event} (hne : ∀ u l, e ≠ .audioUrlMsg u l) :
    eventAbs e ≠ .audioUrlE := by
  intro hc
  cases e <;> simp [eventAbs] at hc
  exact hne _ _ rfl

theorem reach_invTimers {s : VState} (h : Reach s) :
    invTimers (absVState s) = true := by
  induction h with
  | start b => cases b <;> rfl
  | next e _ ih =>
    rw [absVState_step]
    exact invTimers_step _ _ ih

theorem reachP_invDelivery {s : VState} (h : ReachP s) :
    invDelivery (absVState s) = true := by
  induction h with
  | start b => cases b <;> rfl
  | next e hne _ ih =>
    rw [absVState_step]
    exact invDelivery_step_nonaudio _ _ (eventAbs_ne_audio hne) ih
  | audioArrives u l hph _ ih =>
    rw [absVState_step]
    exact invDelivery_step_audio _ hph ih

/-! ## Claims -/

/-- C1: For every voice turn, an `audio_url` arriving in `PROCESSING` or
`STREAMING` is stored in the single-slot pending buffer with no playback
delivery at that moment; a later `stream_end` enters `PLAYING` and
immediately delivers exactly that buffered asset; and in no reachable
(protocol-conformant) state has audio been delivered for the turn before
its final text was finalized. -/
theorem C1_audio_buffered_until_final :
    (∀ (s : VState) (u l : String),
       s.phase = .processing ∨ s.phase = .streaming →
       (step s (.audioUrlMsg u l)).1.pendingAudio = some ⟨u, l⟩
       ∧ (step s (.audioUrlMsg u l)).1.phase = s.phase
       ∧ (step s (.audioUrlMsg u l)).2 = [])
    ∧ (∀ (s : VState) (t l : String) (a : AudioAsset),
       s.pendingAudio = some a →
       (step s (.streamEndMsg t l)).1.phase = .playing
       ∧ audioOuts (step s (.streamEndMsg t l)).2 = [a])
    ∧ (∀ s : VState, ReachP s → s.deliveredAudio ≠ [] → s.finalText.isSome = true) := by
  refine ⟨?_, ?_, ?_⟩
  · intro s u l h
    rcases h with h | h <;> simp [step, h]
  · intro s t l a hp
    simp [step, hp, audioOuts]
  · intro s hr hne
    have hinv := reachP_invDelivery hr
    cases hl : s.deliveredAudio with
    | nil => exact absurd hl hne
    | cons x xs =>
      simp [invDelivery, absVState, hl] at hinv
      exact hinv.1

def c1s1 : VState := (step (initState true) .userStart).1

def c1s2 : VState := (step c1s1 .userStop).1

def c1s3 : VState := (step c1s2 (.streamChunkMsg "Hi ")).1

def c1s4 : VState := (step c1s3 (.audioUrlMsg "http-a" "en")).1

def c1s5 : VState := (step c1s4 (.streamEndMsg "Hello." "en")).1

theorem C1_witness :
    (step c1s3 (.audioUrlMsg "http-a" "en")).1.pendingAudio = some ⟨"http-a", "en"⟩
    ∧ audioOuts (step c1s4 (.streamEndMsg "Hello." "en")).2 = [⟨"http-a", "en"⟩]
    ∧ c1s5.finalText.isSome = true := by
  have h1 : ReachP c1s1 :=
    ReachP.next .userStart (fun _ _ h => Event.noConfusion h) (ReachP.start true)
  have h2 : ReachP c1s2 :=
    ReachP.next .userStop (fun _ _ h => Event.noConfusion h) h1
  have h3 : ReachP c1s3 :=
    ReachP.next (.streamChunkMsg "Hi ") (fun _ _ h => Event.noConfusion h) h2
  have h4 : ReachP c1s4 :=
    ReachP.audioArrives "http-a" "en" (by decide) h3
  have h5 : ReachP c1s5 :=
    ReachP.next (.streamEndMsg "Hello." "en") (fun _ _ h => Event.noConfusion h) h4
  exact ⟨(C1_audio_buffered_until_final.1 c1s3 "http-a" "en" (by decide)).1,
         (C1_audio_buffered_until_final.2.1 c1s4 "Hello." "en" ⟨"http-a", "en"⟩ (by decide)).2,
         C1_audio_buffered_until_final.2.2 c1s5 h5 (by decide)⟩

/-- C3 counterexample: in a concrete reachable `playing` state, the voice
button click is a no-op — playback is not stopped and no `RECORDING` phase
begins (the click handler only acts in `idle` and `recording`, and
`startRecording` itself rejects every non-idle phase). -/
def c3sPlaying : VState :=
  (step (step (step (step (initState true) .userStart).1 .userStop).1
      (.streamEndMsg "Hello." "en")).1 (.audioUrlMsg "http-a" "en")).1

theorem C3_counterexample :
    c3sPlaying.phase = .playing
    ∧ clickStep c3sPlaying = (c3sPlaying, [])
    ∧ (clickStep c3sPlaying).1.phase ≠ .recording := by decide

/-- C3 (amended): clicking start-recording while the machine is in
`PLAYING` is ignored — the state is unchanged, no callback fires, and no
new `RECORDING` phase begins; a recording can only start from `IDLE`. -/
theorem C3_click_ignored_while_playing (s : VState) (h : s.phase = .playing) :
    clickStep s = (s, []) := by
  simp [clickStep, h]

def c3w : VState := ⟨.playing, true, "", none, none, none, none, [], none⟩

theorem C3_witness : clickStep c3w = (c3w, []) :=
  C3_click_ignored_while_playing c3w rfl

/-- C4: in every phase other than `idle` (with voice support present, the
only way a non-idle phase is ever entered), `startRecording` returns with
no state change at all and no callback: same phase, same accumulated text,
same buffered audio, same timers, same error slot. -/
theorem C4_start_rejected_without_effects (s : VState)
    (hsup : s.supported = true) (h : s.phase ≠ .idle) :
    step s .userStart = (s, []) := by
  simp [step, hsup, h]

def c4sNonIdle : VState := ⟨.waiting_audio, true, "", none, none, some 5000, none, [], some "T"⟩

theorem C4_witness : step c4sNonIdle .userStart = (c4sNonIdle, []) :=
  C4_start_rejected_without_effects c4sNonIdle rfl (by decide)

/-- C5 counterexample: after accumulated stream chunks, a channel error
resets the machine to `idle` — but the accumulated streamed text survives
the error path, so some partial session state does remain. -/
def c5sErr : VState :=
  (step (step (step (step (initState true) .userStart).1 .userStop).1
      (.streamChunkMsg "abc")).1 (.wsErrorMsg "boom")).1

theorem C5_counterexample :
    c5sErr.phase = .idle ∧ c5sErr.streamingText = "abc" ∧ c5sErr.streamingText ≠ "" := by
  decide

/-- C5 (amended): on a channel error, and on expiry of the response
timeout, the machine goes to `IDLE`, the UI error callback fires, both
timer slots end up empty and the buffered audio reference is discarded (on
the timeout path because a pending response timeout excludes a buffered
asset and a pending audio-wait timeout, an invariant of every reachable
state); the accumulated streamed-text buffer however survives the error
path and is only reset by the next recording or the next `stream_end`. -/
theorem C5_error_paths_reset :
    (∀ (s : VState) (m : String),
       (step s (.wsErrorMsg m)).1.phase = .idle
       ∧ (step s (.wsErrorMsg m)).1.responseTimer = none
       ∧ (step s (.wsErrorMsg m)).1.audioTimer = none
       ∧ (step s (.wsErrorMsg m)).1.pendingAudio = none
       ∧ (step s (.wsErrorMsg m)).2 = [.errorReported m])
    ∧ (∀ s : VState, Reach s → s.responseTimer.isSome = true →
       (step s .responseTimeoutFires).1.phase = .idle
       ∧ (step s .responseTimeoutFires).1.responseTimer = none
       ∧ (step s .responseTimeoutFires).1.audioTimer = none
       ∧ (step s .responseTimeoutFires).1.pendingAudio = none
       ∧ (step s .responseTimeoutFires).2 = [.errorReported responseTimeoutMsg]) := by
  refine ⟨?_, ?_⟩
  · intro s m
    simp [step]
  · intro s hr ht
    have hinv := reach_invTimers hr
    obtain ⟨d, hd⟩ := Option.isSome_iff_exists.mp ht
    have hPending : s.pendingAudio = none := by
      cases hp : s.pendingAudio with
      | none => rfl
      | some a => simp [invTimers, absVState, hd, hp] at hinv
    have hAudioT : s.audioTimer = none := by
      cases hp : s.audioTimer with
      | none => rfl
      | some x => simp [invTimers, absVState, hd, hp] at hinv
    simp [step, hd, hPending, hAudioT]

def c5sPending : VState := (step (step (initState true) .userStart).1 .userStop).1

theorem C5_witness :
    (step c5sPending (.wsErrorMsg "x")).1.phase = .idle
    ∧ (step c5sPending .responseTimeoutFires).1.phase = .idle
    ∧ (step c5sPending .responseTimeoutFires).1.pendingAudio = none := by
  have hr : Reach c5sPending :=
    Reach.next .userStop (Reach.next .userStart (Reach.start true))
  exact ⟨(C5_error_paths_reset.1 c5sPending "x").1,
         (C5_error_paths_reset.2 c5sPending hr (by decide)).1,
         (C5_error_paths_reset.2 c5sPending hr (by decide)).2.2.2.1⟩

/-- C6: if the machine is in `WAITING_AUDIO` with the audio-wait timeout
pending and the timeout fires, the machine goes to `IDLE`, no playback is
attempted and no error is reported (no output at all), and the delivered
final text of the turn is preserved; the timeout window is
`AUDIO_URL_TIMEOUT_MS` = 5000 ms, armed by `stream_end` whenever no asset
was buffered. -/
theorem C6_audio_wait_timeout (s : VState)
    (h : s.phase = .waiting_audio) (ht : s.audioTimer.isSome = true) :
    (step s .audioTimeoutFires).1.phase = .idle
    ∧ (step s .audioTimeoutFires).2 = []
    ∧ (step s .audioTimeoutFires).1.finalText = s.finalText
    ∧ (step s .audioTimeoutFires).1.deliveredAudio = s.deliveredAudio
    ∧ (step s .audioTimeoutFires).1.audioTimer = none
    ∧ AUDIO_URL_TIMEOUT_MS = 5000
    ∧ (∀ (s2 : VState) (t l : String), s2.pendingAudio = none →
        (step s2 (.streamEndMsg t l)).1.audioTimer = some AUDIO_URL_TIMEOUT_MS) := by
  obtain ⟨d, hd⟩ := Option.isSome_iff_exists.mp ht
  refine ⟨?_, ?_, ?_, ?_, ?_, rfl, ?_⟩
  · simp [step, hd, h]
  · simp [step, hd]
  · simp [step, hd]
  · simp [step, hd]
  · simp [step, hd]
  · intro s2 t l hp
    simp [step, hp]

def c6s : VState := ⟨.waiting_audio, true, "", none, none, some 5000, none, [], some "Hello."⟩

theorem C6_witness :
    (step c6s .audioTimeoutFires).1.phase = .idle
    ∧ (step c6s .audioTimeoutFires).2 = []
    ∧ (step c6s .audioTimeoutFires).1.finalText = c6s.finalText :=
  ⟨(C6_audio_wait_timeout c6s rfl rfl).1,
   (C6_audio_wait_timeout c6s rfl rfl).2.1,
   (C6_audio_wait_timeout c6s rfl rfl).2.2.1⟩

theorem mem_updateById {ms : List ChatMessage} {i : String}
    {f : ChatMessage → ChatMessage} {m : ChatMessage}
    (hm : m ∈ updateById ms i f) :
    (∃ m0, m0 ∈ ms ∧ m0.id = i ∧ m = f m0) ∨ (m ∈ ms ∧ m.id ≠ i) := by
  rw [updateById, List.mem_map] at hm
  obtain ⟨m0, h0, heq⟩ := hm
  by_cases hc : m0.id = i
  · exact Or.inl ⟨m0, h0, hc, by rw [← heq, if_pos hc]⟩
  · refine Or.inr ?_
    rw [if_neg hc] at heq
    subst heq
    exact ⟨h0, hc⟩

/-- C2 counterexample: chunks arrive, then `stream_end` whose content
carries a trailing space; the single displayed agent message holds the
sanitized content, which differs from the authoritative content itself
(and from the chunk concatenation). -/
def c2w1 : WindowState := handleVoiceStreamChunk "voice-ai-1" "Rice needs..." ⟨[], none⟩

def c2w2 : WindowState :=
  handleVoiceStreamChunk "voice-ai-2" "Rice needs......monsoon." c2w1

def c2T : String := "Rice grows best in monsoon. "

def c2w3 : WindowState := handleVoiceResponse "voice-ai-3" c2T c2w2

theorem C2_counterexample :
    c2w3.messages.map (fun m => m.text) = ["Rice grows best in monsoon."]
    ∧ "Rice grows best in monsoon." ≠ c2T
    ∧ "Rice grows best in monsoon." ≠ "Rice needs..." ++ "...monsoon." ++ c2T := by
  decide

/-- C2 (amended): after `stream_end` with content `T`, the single streaming
bubble is finalized in place with text `sanitizeText T` — the sanitized
authoritative content (equal to `T` whenever `T` is already in sanitized
form), never the concatenation of accumulated fragments with `T` — no new
message is added, and the hook's accumulated fragment text is discarded. -/
theorem C2_stream_end_replaces (w : WindowState) (i freshId T lang : String)
    (hid : w.streamingMsgId = some i) (hin : hasId w.messages i = true) :
    (∀ m ∈ (handleVoiceResponse freshId T w).messages, m.id = i →
        m.text = sanitizeText T ∧ m.status = some .final)
    ∧ (handleVoiceResponse freshId T w).messages.length = w.messages.length
    ∧ (handleVoiceResponse freshId T w).streamingMsgId = none
    ∧ (∀ s : VState, (step s (.streamEndMsg T lang)).1.streamingText = "") := by
  have hw : handleVoiceResponse freshId T w =
      { messages := updateById w.messages i (fun m =>
          { m with text := sanitizeText T, streaming := false, status := some .final }),
        streamingMsgId := none } := by
    simp [handleVoiceResponse, hid, hin]
  refine ⟨?_, ?_, ?_, ?_⟩
  · intro m hm hmi
    rw [hw] at hm
    rcases mem_updateById hm with ⟨m0, _, _, hfe⟩ | ⟨_, hne⟩
    · subst hfe
      exact ⟨rfl, rfl⟩
    · exact absurd hmi hne
  · rw [hw]
    simp [updateById]
  · rw [hw]
  · intro s
    cases hp : s.pendingAudio <;> simp [step, hp]

theorem C2_witness :
    (handleVoiceResponse "f" "Hello there." c2w2).streamingMsgId = none
    ∧ (handleVoiceResponse "f" "Hello there." c2w2).messages.length
        = c2w2.messages.length := by
  have h := C2_stream_end_replaces c2w2 "voice-ai-1" "f" "Hello there." "en"
    (by decide) (by decide)
  exact ⟨h.2.2.1, h.2.1⟩

/-- C7: a `stop()` on a live recording resolves with format `"mp3"` and the
transcoded payload when the MP3 transcode succeeds, and with format
`"webm"` and the base64 of the raw captured bytes when it fails, in both
cases carrying the elapsed duration; a captured blob under the
100-byte threshold makes `stop()` reject instead. -/
theorem C7_stop_result (bytes : List Nat) (d : Nat) (mp3data : String)
    (hsize : MIN_RECORDING_BYTES ≤ bytes.length) :
    stopFinalize true bytes d (some mp3data) = .ok ⟨mp3data, "mp3", d⟩
    ∧ stopFinalize true bytes d none = .ok ⟨base64Encode bytes, "webm", d⟩
    ∧ (∀ bytes2 : List Nat, bytes2.length < MIN_RECORDING_BYTES →
        stopFinalize true bytes2 d (some mp3data) =
          .error ("Recording too small: " ++ toString bytes2.length ++ " bytes")
        ∧ stopFinalize true bytes2 d none =
          .error ("Recording too small: " ++ toString bytes2.length ++ " bytes")) := by
  have hlt : ¬ bytes.length < MIN_RECORDING_BYTES := not_lt.mpr hsize
  refine ⟨?_, ?_, ?_⟩
  · simp [stopFinalize, hlt]
  · simp [stopFinalize, hlt]
  · intro bytes2 h2
    exact ⟨by simp [stopFinalize, h2], by simp [stopFinalize, h2]⟩

def c7bytes : List Nat := List.replicate 100 7

theorem C7_witness :
    stopFinalize true c7bytes 3000 (some "AAAA") = .ok ⟨"AAAA", "mp3", 3000⟩
    ∧ stopFinalize true c7bytes 3000 none = .ok ⟨base64Encode c7bytes, "webm", 3000⟩
    ∧ stopFinalize true [1, 2, 3] 3000 none =
        .error ("Recording too small: " ++ toString [1, 2, 3].length ++ " bytes") := by
  have h := C7_stop_result c7bytes 3000 "AAAA" (by decide)
  exact ⟨h.1, h.2.1, (h.2.2 [1, 2, 3] (by decide)).2⟩

/-- C8: for every audio asset handed to the UI, playback is scheduled so it
starts at least 1000 ms after the transcript was shown: immediately (zero
delay) when 1000 ms have already elapsed, and otherwise deferred by exactly
`max(1000 - elapsed, 0)` ms, i.e. until the dwell time completes. -/
theorem C8_dwell_time (t now : Int) (url : String) (h : t ≤ now) :
    (1000 ≤ now - t → scheduleAudioPlayback (some t) now url = .playNow url)
    ∧ (now - t < 1000 →
        scheduleAudioPlayback (some t) now url = .playAfter (1000 - (now - t)) url)
    ∧ playbackStart (scheduleAudioPlayback (some t) now url) now = max (t + 1000) now := by
  by_cases hc : 1000 ≤ now - t
  · have hd : max (1000 - (now - t)) 0 = 0 := max_eq_right (by omega)
    refine ⟨fun _ => ?_, fun hlt => absurd hc (not_le.mpr hlt), ?_⟩
    · simp [scheduleAudioPlayback, hd]
    · simp only [scheduleAudioPlayback, Option.getD, hd]
      simp [playbackStart]
      omega
  · have hd : max (1000 - (now - t)) 0 = 1000 - (now - t) := max_eq_left (by omega)
    have hne : ¬ (1000 - (now - t) = 0) := by omega
    refine ⟨fun hge => absurd hge hc, fun _ => ?_, ?_⟩
    · simp [scheduleAudioPlayback, hd, hne]
    · simp only [scheduleAudioPlayback, Option.getD, hd]
      simp [playbackStart, hne]
      omega

theorem C8_witness :
    scheduleAudioPlayback (some 0) 1500 "u" = .playNow "u"
    ∧ scheduleAudioPlayback (some 0) 400 "v" = .playAfter 600 "v" := by
  refine ⟨(C8_dwell_time 0 1500 "u" (by decide)).1 (by decide), ?_⟩
  have h := (C8_dwell_time 0 400 "v" (by decide)).2.1 (by decide)
  norm_num at h
  exact h

/-- C9 counterexample: in the variant client the reconnect delay does not
increase with the attempt count — the first and the second scheduled
attempt both use a 2000 ms delay. -/
theorem C9_counterexample :
    (VoiceWSVariant.oncloseStep ⟨0, false⟩).2 = some 2000
    ∧ (VoiceWSVariant.oncloseStep (VoiceWSVariant.oncloseStep ⟨0, false⟩).1).2
        = some 2000 := by
  decide

/-- C9 (amended): on an unexpected close each client schedules at most
`maxReconnectAttempts` reconnection attempts in a row (3 primary,
5 variant), every schedule increments the attempt counter; the primary
client's delay is `reconnectDelay * attempt`, strictly increasing with the
attempt count, while the variant uses the constant `reconnectDelay`
(2000 ms); once `disconnect()` has set the intentional-close flag, `onclose`
schedules no reconnection attempt in either client. -/
theorem C9_reconnect_policy :
    (∀ s : WSClientState, VoiceWS.maxReconnectAttempts ≤ s.reconnectAttempts →
        (VoiceWS.oncloseStep s).2 = none)
    ∧ (∀ s : WSClientState, VoiceWSVariant.maxReconnectAttempts ≤ s.reconnectAttempts →
        (VoiceWSVariant.oncloseStep s).2 = none)
    ∧ (∀ (s : WSClientState) (d : Nat), (VoiceWS.oncloseStep s).2 = some d →
        s.reconnectAttempts < VoiceWS.maxReconnectAttempts
        ∧ (VoiceWS.oncloseStep s).1.reconnectAttempts = s.reconnectAttempts + 1
        ∧ d = VoiceWS.reconnectDelay * (s.reconnectAttempts + 1))
    ∧ (∀ (s : WSClientState) (d : Nat), (VoiceWSVariant.oncloseStep s).2 = some d →
        s.reconnectAttempts < VoiceWSVariant.maxReconnectAttempts
        ∧ (VoiceWSVariant.oncloseStep s).1.reconnectAttempts = s.reconnectAttempts + 1
        ∧ d = VoiceWSVariant.reconnectDelay)
    ∧ (∀ a b : Nat, a < b →
        VoiceWS.reconnectDelay * (a + 1) < VoiceWS.reconnectDelay * (b + 1))
    ∧ (∀ s : WSClientState, s.intentionalClose = true →
        VoiceWS.oncloseStep s = (s, none) ∧ VoiceWSVariant.oncloseStep s = (s, none))
    ∧ (∀ s : WSClientState, (VoiceWS.disconnectStep s).intentionalClose = true
        ∧ (VoiceWSVariant.disconnectStep s).intentionalClose = true) := by
  refine ⟨?_, ?_, ?_, ?_, ?_, ?_, ?_⟩
  · intro s h
    rw [VoiceWS.oncloseStep, if_neg]
    rintro ⟨-, hlt⟩
    exact absurd hlt (not_lt.mpr h)
  · intro s h
    rw [VoiceWSVariant.oncloseStep, if_neg]
    rintro ⟨-, hlt⟩
    exact absurd hlt (not_lt.mpr h)
  · intro s d hd
    by_cases hc : (((!s.intentionalClose) = true) ∧
        s.reconnectAttempts < VoiceWS.maxReconnectAttempts)
    · rw [VoiceWS.oncloseStep, if_pos hc] at hd
      refine ⟨hc.2, ?_, ?_⟩
      · rw [VoiceWS.oncloseStep, if_pos hc]
      · exact (Option.some_inj.mp hd).symm
    · rw [VoiceWS.oncloseStep, if_neg hc] at hd
      exact absurd hd (by simp)
  · intro s d hd
    by_cases hc : (((!s.intentionalClose) = true) ∧
        s.reconnectAttempts < VoiceWSVariant.maxReconnectAttempts)
    · rw [VoiceWSVariant.oncloseStep, if_pos hc] at hd
      refine ⟨hc.2, ?_, ?_⟩
      · rw [VoiceWSVariant.oncloseStep, if_pos hc]
      · exact (Option.some_inj.mp hd).symm
    · rw [VoiceWSVariant.oncloseStep, if_neg hc] at hd
      exact absurd hd (by simp)
  · intro a b hab
    simp only [VoiceWS.reconnectDelay]
    omega
  · intro s h
    constructor
    · rw [VoiceWS.oncloseStep, if_neg]
      rintro ⟨hic, -⟩
      rw [h] at hic
      exact absurd hic (by simp)
    · rw [VoiceWSVariant.oncloseStep, if_neg]
      rintro ⟨hic, -⟩
      rw [h] at hic
      exact absurd hic (by simp)
  · intro s
    exact ⟨rfl, rfl⟩

theorem C9_witness :
    (VoiceWS.oncloseStep ⟨3, false⟩).2 = none
    ∧ VoiceWS.oncloseStep ⟨1, true⟩ = (⟨1, true⟩, none)
    ∧ (VoiceWSVariant.oncloseStep ⟨5, false⟩).2 = none := by
  exact ⟨C9_reconnect_policy.1 ⟨3, false⟩ (by decide),
         (C9_reconnect_policy.2.2.2.2.2.1 ⟨1, true⟩ rfl).1,
         C9_reconnect_policy.2.1 ⟨5, false⟩ (by decide)⟩

/-- C10: every malformed incoming frame — unparseable, of unrecognized
type, or missing/empty in its required field — dispatches no client
callback, and the handler leaves the channel state untouched, so a
malformed frame never crashes the channel. -/
theorem C10_malformed_dropped (m : VoiceMessage) (h : malformedFrame m = true) :
    handleMessage m = none
    ∧ (∀ c : WSClientState, onmessageStep c (some m) = (c, none))
    ∧ (∀ c : WSClientState, onmessageStep c none = (c, none)) := by
  have hm : handleMessage m = none := by
    by_cases h1 : m.type = "transcript"
    · have hc : truthyField m.content = false := by
        simp [malformedFrame, recognizedTypes, h1] at h
        exact h
      simp [handleMessage, h1, hc]
    · by_cases h2 : m.type = "stream_chunk"
      · have hc : truthyField m.content = false := by
          simp [malformedFrame, recognizedTypes, h2] at h
          exact h
        simp [handleMessage, h1, h2, hc]
      · by_cases h3 : m.type = "stream_end"
        · have hc : truthyField m.content = false := by
            simp [malformedFrame, recognizedTypes, h3] at h
            exact h
          simp [handleMessage, h1, h2, h3, hc]
        · by_cases h4 : m.type = "audio_url"
          · have hc : truthyField m.url = false := by
              simp [malformedFrame, recognizedTypes, h4] at h
              exact h
            simp [handleMessage, h1, h2, h3, h4, hc]
          · by_cases h5 : m.type = "error"
            · have hc : truthyField m.message = false := by
                simp [malformedFrame, recognizedTypes, h5] at h
                exact h
              simp [handleMessage, h1, h2, h3, h4, h5, hc]
            · by_cases h6 : m.type = "pong"
              · simp [handleMessage, h1, h2, h3, h4, h5, h6]
              · simp [handleMessage, h1, h2, h3, h4, h5, h6]
  exact ⟨hm, fun c => by simp [onmessageStep, hm], fun c => by simp [onmessageStep]⟩

theorem C10_witness :
    handleMessage ⟨"bogus", none, none, none, none⟩ = none
    ∧ onmessageStep ⟨0, false⟩ none = (⟨0, false⟩, none) := by
  have h := C10_malformed_dropped ⟨"bogus", none, none, none, none⟩ (by decide)
  exact ⟨h.1, h.2.2 ⟨0, false⟩⟩
